import Mathlib

/-!
Shallow embedding of the credential aggregation and reconciliation engine
of `src/main.ts` (a Deno KV API-key usage dashboard), together with theorems
checking the natural-language specification against this code.

The store is modelled as a list of entries in the KV iteration order; the
remote accounting endpoint is modelled as a function from the secret to an
abstract response (transport exception, or an HTTP status plus an optional
parsed JSON body — `none` standing for a body on which `response.json()`
throws).  Counters and credits are integers; `usedRatio` is a rational
passed through untouched.
-/

namespace ApiKeyUsage

/-- `ApiKeyEntry` of `main.ts` (lines 61–67): id, secret value, optional
display name, optional note, creation timestamp (epoch ms). -/
structure ApiKeyEntry where
  id : String
  key : String
  name : Option String := none
  note : Option String := none
  createdAt : Nat := 0
deriving Repr, DecidableEq

/-- The `standard` object of the remote JSON body
(`usage.standard.{orgTotalTokensUsed, totalAllowance, usedRatio}`); each
field may be absent in the JSON. -/
structure StandardUsage where
  orgTotalTokensUsed : Option Int := none
  totalAllowance : Option Int := none
  usedRatio : Option Rat := none
deriving Repr, DecidableEq

/-- The `usage` object of the remote JSON body. -/
structure UsageInfo where
  startDate : Option Int := none
  endDate : Option Int := none
  standard : Option StandardUsage := none
deriving Repr, DecidableEq

/-- A parsed remote JSON body: `{ usage: ... }` with `usage` possibly absent. -/
structure ApiBody where
  usage : Option UsageInfo := none
deriving Repr, DecidableEq

/-- Outcome of one outbound `fetch` call for a given secret: either the
transport throws, or a response arrives with a status code and a body;
`none` for the body means `response.json()` throws (non-JSON body). -/
inductive Remote where
  | throws : Remote
  | resp (status : Nat) (body : Option ApiBody) : Remote
deriving Repr, DecidableEq

/-- `Response.ok` of the fetch API: status in [200, 300). -/
def okStatus (status : Nat) : Bool :=
  200 ≤ status && status < 300

/-- The full masked form `key.substring(0, 4) + "..." + key.substring(key.length - 4)`
(used in the success path of `fetchApiKeyData`, in `findDuplicateKeys`, in
`batchImportKeys` and in the GET `/api/keys` projection). -/
def maskFull (key : String) : String :=
  key.take 4 ++ "..." ++ key.drop (key.length - 4)

/-- The truncated masked form `key.substring(0, 4) + "..."` used in every
failure path of `fetchApiKeyData`. -/
def maskPrefix (key : String) : String :=
  key.take 4 ++ "..."

/-- Two-digit zero padding for date rendering. -/
def pad2 (n : Int) : String :=
  if n < 10 then "0" ++ toString n else toString n

/-- Civil date from days since the Unix epoch (proleptic Gregorian),
backing `new Date(ms).toISOString().split('T')[0]`. -/
def civilFromDays (z0 : Int) : Int × Int × Int :=
  let z := z0 + 719468
  let era : Int := (if 0 ≤ z then z else z - 146096) / 146097
  let doe : Int := z - era * 146097
  let yoe : Int := (doe - doe / 1460 + doe / 36524 - doe / 146096) / 365
  let y : Int := yoe + era * 400
  let doy : Int := doe - (365 * yoe + yoe / 4 - yoe / 100)
  let mp : Int := (5 * doy + 2) / 153
  let d : Int := doy - (153 * mp + 2) / 5 + 1
  let m : Int := mp + (if mp < 10 then 3 else -9)
  (y + (if m ≤ 2 then 1 else 0), m, d)

/-- The `YYYY-MM-DD` prefix of `new Date(ms).toISOString()`. -/
def isoDate (ms : Int) : String :=
  let days := Int.fdiv ms 86400000
  let c := civilFromDays days
  toString c.1 ++ "-" ++ pad2 c.2.1 ++ "-" ++ pad2 c.2.2

/-- `formatDate` of `fetchApiKeyData`: a missing timestamp renders as
`N/A`; a timestamp outside the ECMAScript time range makes `toISOString`
throw, caught and rendered as `Invalid Date`. -/
def formatDate : Option Int → String
  | none => "N/A"
  | some t => if t.natAbs ≤ 8640000000000000 then isoDate t else "Invalid Date"

/-- The object `fetchApiKeyData` returns: `error` is absent on success;
the usage fields are absent on failure (and absent on success when the
remote JSON omitted them). -/
structure Snapshot where
  id : String
  key : String
  error : Option String := none
  startDate : Option String := none
  endDate : Option String := none
  orgTotalTokensUsed : Option Int := none
  totalAllowance : Option Int := none
  usedRatio : Option Rat := none
deriving Repr, DecidableEq

/-- `fetchApiKeyData(id, key)` of `main.ts` (lines 2977–3023), with the
remote endpoint abstracted as `remote : String → Remote`.  A transport
exception or a `response.json()` exception reaches the outer catch
(`error: 'Failed to fetch'`); a non-2xx status yields
`error: 'HTTP <status>'`; a parsed body without `usage.standard` yields
`error: 'Invalid API response structure'`; otherwise the success object is
built with the fully masked key. -/
def fetchApiKeyData (remote : String → Remote) (id key : String) : Snapshot :=
  match remote key with
  | .throws => { id := id, key := maskPrefix key, error := some "Failed to fetch" }
  | .resp status body =>
    if okStatus status then
      match body with
      | none => { id := id, key := maskPrefix key, error := some "Failed to fetch" }
      | some b =>
        match b.usage with
        | none => { id := id, key := maskPrefix key, error := some "Invalid API response structure" }
        | some u =>
          match u.standard with
          | none => { id := id, key := maskPrefix key, error := some "Invalid API response structure" }
          | some s =>
            { id := id
              key := maskFull key
              error := none
              startDate := some (formatDate u.startDate)
              endDate := some (formatDate u.endDate)
              orgTotalTokensUsed := s.orgTotalTokensUsed
              totalAllowance := s.totalAllowance
              usedRatio := s.usedRatio }
    else
      { id := id, key := maskPrefix key, error := some ("HTTP " ++ toString status) }

/-- The `totals` accumulator of `getAggregatedData`. -/
structure Totals where
  total_orgTotalTokensUsed : Int := 0
  total_totalAllowance : Int := 0
deriving Repr, DecidableEq

/-- The object `getAggregatedData` returns (`update_time` is kept as the
shifted epoch value that the Beijing-time string is formatted from). -/
structure AggregateView where
  update_time_ms : Nat
  total_count : Nat
  totals : Totals
  data : List Snapshot
deriving Repr, DecidableEq

/-- `r.orgTotalTokensUsed || 0` / `r.totalAllowance || 0` of the JS reduce:
an absent field counts as 0 (and `0 || 0` is still 0). -/
def orZero : Option Int → Int
  | none => 0
  | some n => n

/-- The `validResults` filter of `getAggregatedData`: snapshots whose
`error` field is absent (`!r.error`; every error string is non-empty). -/
def validResults (results : List Snapshot) : List Snapshot :=
  results.filter (fun r => r.error = none)

/-- The `reduce` of `getAggregatedData` computing both running totals over
the valid results in one pass, starting from zero. -/
def sumTotals (valid : List Snapshot) : Totals :=
  valid.foldl
    (fun acc r =>
      { total_orgTotalTokensUsed := acc.total_orgTotalTokensUsed + orZero r.orgTotalTokensUsed
        total_totalAllowance := acc.total_totalAllowance + orZero r.totalAllowance })
    {}

/-- `getAggregatedData()` of `main.ts` (lines 3025–3072): throws on an
empty store, otherwise maps `fetchApiKeyData` over every entry
(`Promise.all`), sums the valid results, and returns all snapshots in
store order. -/
def getAggregatedData (remote : String → Remote) (now : Nat)
    (entries : List ApiKeyEntry) : Except String AggregateView :=
  if entries.length = 0 then
    .error "No API keys found in storage. Please import keys first."
  else
    let results := entries.map (fun e => fetchApiKeyData remote e.id e.key)
    let valid := validResults results
    .ok
      { update_time_ms := now + 8 * 60 * 60 * 1000
        total_count := entries.length
        totals := sumTotals valid
        data := results }

/-- The `keysWithBalance` console block of `getAggregatedData` (lines
3046–3061): for every valid snapshot with positive remaining balance, the
original entry is looked up by id and its RAW secret is written to the
log.  This returns the sequence of raw key values logged. -/
def aggregateLoggedKeys (remote : String → Remote)
    (entries : List ApiKeyEntry) : List String :=
  let results := entries.map (fun e => fetchApiKeyData remote e.id e.key)
  let withBalance := (validResults results).filter
    (fun r => 0 < orZero r.totalAllowance - orZero r.orgTotalTokensUsed)
  withBalance.filterMap (fun item =>
    (entries.find? (fun e => e.id = item.id)).map (fun e => e.key))

/-- The batch slicing `keys.slice(i, i + 5)` of the client-side
`loadUsageDataProgressively` (lines 1661–1783): the credential sequence is
cut into consecutive chunks of at most 5, each chunk dispatched with one
`Promise.all` and awaited before the next starts. -/
def chunks5 {α : Type} : List α → List (List α)
  | [] => []
  | x :: xs => (x :: xs.take 4) :: chunks5 (xs.drop 4)
termination_by l => l.length
decreasing_by
  simp only [List.length_drop, List.length_cons]
  omega

/-- The dispatch structure of the server-side `getAggregatedData`: one
`Promise.all` over the entire mapped entry list, i.e. a single batch
containing every stored credential, all of whose fetches are started
before any is awaited. -/
def aggregateDispatchBatches (entries : List ApiKeyEntry) : List (List ApiKeyEntry) :=
  [entries]

/-- A reported duplicate group of `findDuplicateKeys`: masked key, the ids
sharing the underlying secret in store order, and their count. -/
structure DupGroup where
  key : String
  ids : List String
  count : Nat
deriving Repr, DecidableEq

/-- Insertion into the `Map<string, string[]>` of `findDuplicateKeys`:
appends the id to the existing group for this secret, or adds a new group
at the end (JS `Map` preserves first-insertion order of keys). -/
def insertGroup : List (String × List String) → String → String → List (String × List String)
  | [], k, id => [(k, [id])]
  | (k', ids) :: rest, k, id =>
    if k' = k then (k', ids ++ [id]) :: rest
    else (k', ids) :: insertGroup rest k id

/-- The grouping pass of `findDuplicateKeys`: one fold over the store in
iteration order, building secret → ids. -/
def keyGroups (entries : List ApiKeyEntry) : List (String × List String) :=
  entries.foldl (fun m e => insertGroup m e.key e.id) []

/-- `findDuplicateKeys()` of `main.ts` (lines 104–128): groups the store
by exact secret value, and reports each group of 2 or more members with
the masked key, the ids in store order, and the count. -/
def findDuplicateKeys (entries : List ApiKeyEntry) : List DupGroup :=
  (keyGroups entries).filterMap (fun p =>
    if 1 < p.2.length then some ⟨maskFull p.1, p.2, p.2.length⟩ else none)

/-- The sequence of ids the `/api/keys/duplicates/clean` handler deletes
(lines 3221–3245): for each reported group, every id but the first, in
group order then member order. -/
def deleteList (entries : List ApiKeyEntry) : List String :=
  (findDuplicateKeys entries).flatMap (fun g => g.ids.drop 1)

/-- The sequential delete loop of `/api/keys/duplicates/clean`, with
`fails id = true` modelling `deleteApiKey(id)` throwing.  There is no
per-member catch: the first failure aborts the loop (the handler's outer
catch returns a 500).  Returns the store after the performed deletions,
the number of successful deletions, and whether the loop aborted. -/
def runDeletes (fails : String → Bool) :
    List String → List ApiKeyEntry → List ApiKeyEntry × Nat × Bool
  | [], store => (store, 0, false)
  | id :: rest, store =>
    if fails id then (store, 0, true)
    else
      let r := runDeletes fails rest (store.filter (fun e => e.id ≠ id))
      (r.1, r.2.1 + 1, r.2.2)

/-- The ids for which a delete is actually attempted by the clean loop:
everything up to and including the first failing id. -/
def attemptedDeletes (fails : String → Bool) : List String → List String
  | [] => []
  | id :: rest => if fails id then [id] else id :: attemptedDeletes fails rest

/-- Duplicate resolution (`/api/keys/duplicates/clean`) under a given
delete-failure model: find the groups, then run the delete loop. -/
def cleanDuplicatesRun (fails : String → Bool) (entries : List ApiKeyEntry) :
    List ApiKeyEntry × Nat × Bool :=
  runDeletes fails (deleteList entries) entries

/-- Duplicate resolution when no delete throws: the store that survives
the clean handler. -/
def cleanDuplicates (entries : List ApiKeyEntry) : List ApiKeyEntry :=
  (cleanDuplicatesRun (fun _ => false) entries).1

/-- The ids attempted by one run of the clean handler. -/
def cleanAttempted (fails : String → Bool) (entries : List ApiKeyEntry) : List String :=
  attemptedDeletes fails (deleteList entries)

/-- The whitespace class of JS `String.prototype.trim` (restricted to the
ASCII whitespace characters; the secrets imported here are ASCII). -/
def jsWhitespace (c : Char) : Bool :=
  c = ' ' || c = '\t' || c = '\n' || c = '\r' || c = '\x0b' || c = '\x0c'

/-- JS `key.trim()`: strip leading and trailing whitespace. -/
def jsTrim (s : String) : String :=
  String.mk (((s.data.dropWhile jsWhitespace).reverse.dropWhile jsWhitespace).reverse)

/-- `checkDuplicateKey(key)` of `main.ts` (lines 98–101): full-store scan
for an entry with the identical secret. -/
def checkDuplicateKey (store : List ApiKeyEntry) (key : String) : Bool :=
  store.any (fun e => e.key = key)

/-- The id `key-${Date.now()}-${i}` generated for the i-th line of a batch
import. -/
def mkKeyId (now i : Nat) : String :=
  "key-" ++ toString now ++ "-" ++ toString i

/-- `saveApiKey(id, key)` of `main.ts` (lines 70–78): persists a fresh
entry with the default display name. -/
def saveApiKey (store : List ApiKeyEntry) (id key : String) (now : Nat) : List ApiKeyEntry :=
  store ++ [{ id := id, key := key, name := some ("Key " ++ id), createdAt := now }]

/-- The tally `batchImportKeys` returns. -/
structure ImportResult where
  success : Nat := 0
  failed : Nat := 0
  duplicates : Nat := 0
  duplicateKeys : List String := []
deriving Repr, DecidableEq

/-- The loop body of `batchImportKeys` (lines 130–160), threading the
running tally and the live store through the lines: blank (post-trim)
lines are skipped outright; a line whose trimmed secret is already in the
live store counts as a duplicate (masked form recorded) and persists
nothing; otherwise `saveApiKey` either succeeds (`pFail key = false`) or
throws (`pFail key = true`, caught, counted as failed, loop continues). -/
def batchImportAux (pFail : String → Bool) (now : Nat) :
    List String → Nat → ImportResult → List ApiKeyEntry → ImportResult × List ApiKeyEntry
  | [], _, acc, store => (acc, store)
  | k :: rest, i, acc, store =>
    let key := (jsTrim k)
    if key.length > 0 then
      if checkDuplicateKey store key then
        batchImportAux pFail now rest (i + 1)
          { acc with
            duplicates := acc.duplicates + 1
            duplicateKeys := acc.duplicateKeys ++ [maskFull key] }
          store
      else if pFail key then
        batchImportAux pFail now rest (i + 1) { acc with failed := acc.failed + 1 } store
      else
        batchImportAux pFail now rest (i + 1) { acc with success := acc.success + 1 }
          (saveApiKey store (mkKeyId now i) key now)
    else
      batchImportAux pFail now rest (i + 1) acc store

/-- `batchImportKeys(keys)` of `main.ts` against a given store, with
`pFail` modelling which persists throw. -/
def batchImportKeys (pFail : String → Bool) (now : Nat)
    (store : List ApiKeyEntry) (keys : List String) : ImportResult × List ApiKeyEntry :=
  batchImportAux pFail now keys 0 {} store

/-- The balance check of the `/api/keys/zero-balance/delete` handler
(lines 3292–3320) for one entry: the entry is targeted for deletion only
when the response is 2xx, the body parses, `usage?.standard` is present,
both numeric fields are present (an absent operand makes the JS
subtraction NaN, and `NaN <= 0` is false), and allowance minus used is
at most 0.  Every failure (non-2xx, exception, missing structure) is
silently skipped by the handler's inner catch / guards. -/
def zeroBalanceTarget (remote : String → Remote) (e : ApiKeyEntry) : Bool :=
  match remote e.key with
  | .throws => false
  | .resp status body =>
    if okStatus status then
      match body with
      | none => false
      | some b =>
        match b.usage with
        | none => false
        | some u =>
          match u.standard with
          | none => false
          | some s =>
            match s.totalAllowance, s.orgTotalTokensUsed with
            | some a, some used => decide (a - used ≤ 0)
            | _, _ => false
    else false

/-- `keysToDelete` of the `/api/keys/zero-balance/delete` handler: the
ids of the targeted entries, in store order. -/
def zeroBalanceTargets (remote : String → Remote) (entries : List ApiKeyEntry) : List String :=
  (entries.filter (zeroBalanceTarget remote)).map (fun e => e.id)

/-- The per-id delete loop of `/api/keys/zero-balance/delete` (lines
3322–3331): each delete has its own catch, so a failure only skips that
id; returns the store after the successful deletions and their count. -/
def zeroBalanceDeleteRun (remote : String → Remote) (fails : String → Bool)
    (entries : List ApiKeyEntry) : List ApiKeyEntry × Nat :=
  let targets := (zeroBalanceTargets remote entries).filter (fun id => !fails id)
  (entries.filter (fun e => !targets.contains e.id), targets.length)

/-- The `safeKeys` projection of the GET `/api/keys` handler (lines
3165–3182): id, name, note, creation time, and the masked key — the raw
secret is not part of the response. -/
structure SafeKey where
  id : String
  name : Option String
  note : Option String
  createdAt : Nat
  masked : String
deriving Repr, DecidableEq

/-- The GET `/api/keys` response body. -/
def safeKeys (entries : List ApiKeyEntry) : List SafeKey :=
  entries.map (fun k =>
    { id := k.id, name := k.name, note := k.note, createdAt := k.createdAt
      masked := maskFull k.key })

/-! ### Helper lemmas -/

/-- No string starting with `"HTTP "` equals the invalid-structure
classification. -/
theorem http_ne_invalid (t : String) :
    "HTTP " ++ t ≠ "Invalid API response structure" := by
  intro h
  have h2 := congrArg String.data h
  simp [String.data_append] at h2

/-- No string starting with `"HTTP "` equals the transport-failure
classification. -/
theorem http_ne_failed (t : String) : "HTTP " ++ t ≠ "Failed to fetch" := by
  intro h
  have h2 := congrArg String.data h
  simp [String.data_append] at h2

/-! ### C7 — empty credential set -/

/-- C7: `getAggregatedData` on an empty store throws the descriptive
"no credentials" error, and on any non-empty store it returns a view,
never that error. -/
theorem aggregate_empty_fails_nonempty_succeeds (remote : String → Remote)
    (now : Nat) (entries : List ApiKeyEntry) (h : entries ≠ []) :
    getAggregatedData remote now []
      = .error "No API keys found in storage. Please import keys first." ∧
    ∃ v, getAggregatedData remote now entries = .ok v := by
  constructor
  · rfl
  · rw [getAggregatedData]
    simp [List.length_eq_zero, h]

/-- C7 witness: one stored credential, remote unreachable. -/
theorem aggregate_empty_fails_nonempty_succeeds_witness :
    getAggregatedData (fun _ => .throws) 0 []
      = .error "No API keys found in storage. Please import keys first." ∧
    ∃ v, getAggregatedData (fun _ => .throws) 0 [⟨"a", "sk-12345678", none, none, 0⟩] = .ok v :=
  aggregate_empty_fails_nonempty_succeeds (fun _ => .throws) 0 _ (by decide)

/-! ### C9 — masked secret on every return path -/

/-- C9 counterexample: on a non-2xx failure path the returned masked
secret is only the first 4 characters followed by `"..."`, not
first 4 + `"..."` + last 4 as the claim states. -/
theorem fetch_mask_counterexample :
    (fetchApiKeyData (fun _ => .resp 401 none) "id1" "sk-1234567890abcd").key
      = "sk-1..." ∧
    maskFull "sk-1234567890abcd" = "sk-1...abcd" ∧
    ("sk-1..." : String) ≠ "sk-1...abcd" := by
  refine ⟨rfl, rfl, by decide⟩

/-- On a successful fetch the snapshot's key is the full mask; on any
failure it is the truncated mask. -/
theorem fetch_key_mask_cases (remote : String → Remote) (id key : String) :
    ((fetchApiKeyData remote id key).error = none →
      (fetchApiKeyData remote id key).key = maskFull key) ∧
    ((fetchApiKeyData remote id key).error ≠ none →
      (fetchApiKeyData remote id key).key = maskPrefix key) := by
  rw [fetchApiKeyData]
  cases remote key with
  | throws => simp
  | resp status body =>
    by_cases hok : okStatus status
    · simp only [hok, if_true]
      match body with
      | none => simp
      | some b =>
        match hu : b.usage with
        | none => simp [hu]
        | some u =>
          match hs : u.standard with
          | none => simp [hu, hs]
          | some s => simp [hu, hs]
    · simp [hok]

/-- C9 amended: the success path returns the full mask
(first 4 + `"..."` + last 4); every failure path (non-2xx, malformed 2xx
body, transport exception) returns the truncated mask
(first 4 + `"..."`). -/
theorem fetch_mask_paths (remote : String → Remote) (id key : String) :
    ((fetchApiKeyData remote id key).error = none →
      (fetchApiKeyData remote id key).key = maskFull key) ∧
    ((fetchApiKeyData remote id key).error ≠ none →
      (fetchApiKeyData remote id key).key = maskPrefix key) :=
  fetch_key_mask_cases remote id key

/-- C9 amended witness: a successful fetch carries the full mask; an
unauthorized fetch carries the truncated mask. -/
theorem fetch_mask_paths_witness :
    (fetchApiKeyData
        (fun _ => .resp 200 (some ⟨some ⟨some 0, some 0, some ⟨some 100, some 1000, none⟩⟩⟩))
        "i" "sk-1234567890abcd").key = maskFull "sk-1234567890abcd" ∧
    (fetchApiKeyData (fun _ => .resp 500 none) "i" "sk-1234567890abcd").key
      = maskPrefix "sk-1234567890abcd" :=
  ⟨(fetch_mask_paths
      (fun _ => .resp 200 (some ⟨some ⟨some 0, some 0, some ⟨some 100, some 1000, none⟩⟩⟩))
      "i" "sk-1234567890abcd").1 rfl,
   (fetch_mask_paths (fun _ => .resp 500 none) "i" "sk-1234567890abcd").2 (by decide)⟩

/-! ### C2 — fetch never throws, tagged error classification -/

/-- C2: `fetchApiKeyData` always returns a tagged result (it is total over
every remote behaviour): a transport exception is classified
`Failed to fetch`; a non-2xx status is classified by the literal status
code (`HTTP <status>`); a 2xx body lacking the nested `usage.standard`
structure is classified `Invalid API response structure`; every error
tag is one of those three, and the three classifications are mutually
distinct. -/
theorem fetch_error_classification (remote : String → Remote) (id key : String) :
    (remote key = .throws →
      (fetchApiKeyData remote id key).error = some "Failed to fetch") ∧
    (∀ status body, remote key = .resp status body → okStatus status = false →
      (fetchApiKeyData remote id key).error = some ("HTTP " ++ toString status)) ∧
    (∀ status b, remote key = .resp status (some b) → okStatus status = true →
      (b.usage = none ∨ ∃ u, b.usage = some u ∧ u.standard = none) →
      (fetchApiKeyData remote id key).error = some "Invalid API response structure") ∧
    ((fetchApiKeyData remote id key).error = none ∨
      (fetchApiKeyData remote id key).error = some "Failed to fetch" ∨
      (fetchApiKeyData remote id key).error = some "Invalid API response structure" ∨
      ∃ status, (fetchApiKeyData remote id key).error = some ("HTTP " ++ toString status) ∧
        okStatus status = false) ∧
    (∀ status : Nat, ("HTTP " ++ toString status) ≠ "Invalid API response structure" ∧
      ("HTTP " ++ toString status) ≠ "Failed to fetch") ∧
    ("Invalid API response structure" : String) ≠ "Failed to fetch" := by
  refine ⟨?_, ?_, ?_, ?_, ?_, by decide⟩
  · intro h
    simp [fetchApiKeyData, h]
  · intro status body h hok
    simp [fetchApiKeyData, h, hok]
  · intro status b h hok hbad
    rcases hbad with hu | ⟨u, hu, hs⟩
    · simp [fetchApiKeyData, h, hok, hu]
    · simp [fetchApiKeyData, h, hok, hu, hs]
  · cases hr : remote key with
    | throws => simp [fetchApiKeyData, hr]
    | resp status body =>
      by_cases hok : okStatus status
      · cases body with
        | none => simp [fetchApiKeyData, hr, hok]
        | some b =>
          cases hu : b.usage with
          | none => simp [fetchApiKeyData, hr, hok, hu]
          | some u =>
            cases hs : u.standard with
            | none => simp [fetchApiKeyData, hr, hok, hu, hs]
            | some s => simp [fetchApiKeyData, hr, hok, hu, hs]
      · right; right; right
        exact ⟨status, by simp [fetchApiKeyData, hr, hok], by simpa using hok⟩
  · intro status
    exact ⟨http_ne_invalid _, http_ne_failed _⟩

/-- C2 witness: the three failure classifications realized concretely —
transport exception, HTTP 404, and a 2xx body with no `usage`. -/
theorem fetch_error_classification_witness :
    (fetchApiKeyData (fun _ => .throws) "i" "sk-1234567890abcd").error
      = some "Failed to fetch" ∧
    (fetchApiKeyData (fun _ => .resp 404 none) "i" "sk-1234567890abcd").error
      = some ("HTTP " ++ toString 404) ∧
    (fetchApiKeyData (fun _ => .resp 200 (some ⟨none⟩)) "i" "sk-1234567890abcd").error
      = some "Invalid API response structure" :=
  ⟨(fetch_error_classification (fun _ => .throws) "i" "sk-1234567890abcd").1 rfl,
   (fetch_error_classification (fun _ => .resp 404 none) "i" "sk-1234567890abcd").2.1
      404 none rfl (by decide),
   (fetch_error_classification (fun _ => .resp 200 (some ⟨none⟩)) "i" "sk-1234567890abcd").2.2.1
      200 ⟨none⟩ rfl (by decide) (Or.inl rfl)⟩

/-! ### C1 — summary totals over non-error snapshots -/

/-- The one-pass `reduce` of `getAggregatedData` computes, in each field,
the starting value plus the field-wise sum. -/
theorem sumTotals_foldl (l : List Snapshot) (acc : Totals) :
    l.foldl
      (fun acc r =>
        { total_orgTotalTokensUsed := acc.total_orgTotalTokensUsed + orZero r.orgTotalTokensUsed
          total_totalAllowance := acc.total_totalAllowance + orZero r.totalAllowance })
      acc
      = { total_orgTotalTokensUsed :=
            acc.total_orgTotalTokensUsed + (l.map (fun r => orZero r.orgTotalTokensUsed)).sum
          total_totalAllowance :=
            acc.total_totalAllowance + (l.map (fun r => orZero r.totalAllowance)).sum } := by
  induction l generalizing acc with
  | nil => simp
  | cons r rest ih =>
    simp only [List.foldl_cons, List.map_cons, List.sum_cons, ih]
    refine congrArg₂ Totals.mk ?_ ?_ <;> ring

/-- Summing any integer projection over the valid snapshots equals
summing it over all snapshots with error-tagged ones replaced by 0. -/
theorem sum_valid_eq_sum_if (l : List Snapshot) (f : Snapshot → Int) :
    ((validResults l).map f).sum
      = (l.map (fun r => if r.error = none then f r else 0)).sum := by
  induction l with
  | nil => rfl
  | cons r rest ih =>
    simp only [validResults] at ih ⊢
    by_cases h : r.error = none <;> simp [List.filter_cons, h, ih]

/-- C1: for every non-empty store, `getAggregatedData` succeeds with a
view whose data lists one snapshot per credential (error-tagged ones
included) and whose summary totals equal the sums of `totalAllowance`
and `orgTotalTokensUsed` over exactly the snapshots without an error,
error-tagged snapshots contributing 0 to both sums. -/
theorem aggregate_totals_spec (remote : String → Remote) (now : Nat)
    (entries : List ApiKeyEntry) (h : entries ≠ []) :
    ∃ v, getAggregatedData remote now entries = .ok v ∧
      v.data = entries.map (fun e => fetchApiKeyData remote e.id e.key) ∧
      v.total_count = entries.length ∧
      v.totals.total_totalAllowance
        = (v.data.map (fun r => if r.error = none then orZero r.totalAllowance else 0)).sum ∧
      v.totals.total_orgTotalTokensUsed
        = (v.data.map (fun r => if r.error = none then orZero r.orgTotalTokensUsed else 0)).sum := by
  have hlen : ¬ entries.length = 0 := by simp [List.length_eq_zero, h]
  rw [getAggregatedData]
  simp only [hlen, if_false]
  refine ⟨_, rfl, rfl, rfl, ?_, ?_⟩ <;>
    simp [sumTotals, sumTotals_foldl, sum_valid_eq_sum_if]

/-- A concrete remote for witnesses: one healthy key (allowance 1000,
used 400), every other key rejected with HTTP 401. -/
def wRemote : String → Remote := fun k =>
  if k = "sk-good-1234567890" then
    .resp 200 (some ⟨some ⟨some 0, some 0, some ⟨some 400, some 1000, none⟩⟩⟩)
  else .resp 401 none

/-- A concrete two-credential store for witnesses. -/
def wEntries : List ApiKeyEntry :=
  [⟨"a", "sk-good-1234567890", none, none, 0⟩, ⟨"b", "sk-dead-1234567890", none, none, 0⟩]

/-- C1 witness: two credentials, one healthy (allowance 1000, used 400)
and one failing with HTTP 401 — totals count only the healthy one, and
both snapshots are listed. -/
theorem aggregate_totals_spec_witness :
    ∃ v, getAggregatedData wRemote 0 wEntries = .ok v ∧
      v.data = wEntries.map (fun e => fetchApiKeyData wRemote e.id e.key) ∧
      v.total_count = 2 ∧
      v.totals.total_totalAllowance
        = (v.data.map (fun r => if r.error = none then orZero r.totalAllowance else 0)).sum ∧
      v.totals.total_orgTotalTokensUsed
        = (v.data.map (fun r => if r.error = none then orZero r.orgTotalTokensUsed else 0)).sum :=
  aggregate_totals_spec wRemote 0 wEntries (by decide)

/-! ### C3 — bounded fan-out -/

/-- A concrete six-credential store. -/
def wSixEntries : List ApiKeyEntry :=
  [⟨"k1", "sk-aaaaaaaa11111111", none, none, 0⟩,
   ⟨"k2", "sk-bbbbbbbb22222222", none, none, 0⟩,
   ⟨"k3", "sk-cccccccc33333333", none, none, 0⟩,
   ⟨"k4", "sk-dddddddd44444444", none, none, 0⟩,
   ⟨"k5", "sk-eeeeeeee55555555", none, none, 0⟩,
   ⟨"k6", "sk-ffffffff66666666", none, none, 0⟩]

/-- C3 counterexample: the server-side aggregation (`getAggregatedData`)
dispatches one single `Promise.all` batch containing every stored
credential; with 6 stored credentials, 6 remote calls are in flight at
once, exceeding the claimed bound of 5. -/
theorem aggregate_unbatched_counterexample :
    aggregateDispatchBatches wSixEntries = [wSixEntries] ∧
    ∃ b ∈ aggregateDispatchBatches wSixEntries, 5 < b.length := by
  refine ⟨rfl, wSixEntries, ?_, ?_⟩
  · simp [aggregateDispatchBatches]
  · decide

/-- C3 amended: the client-side progressive loader
(`loadUsageDataProgressively`) processes the credential sequence in
consecutive batches of at most 5 whose concatenation is the whole
sequence (a batch's results are appended only after its `Promise.all`
resolves); the server-side aggregation instead dispatches all
credentials as one batch, so its in-flight call count equals the store
size. -/
theorem progressive_batches_bounded :
    (∀ (keys : List ApiKeyEntry), ∀ b ∈ chunks5 keys, b.length ≤ 5) ∧
    (∀ (keys : List ApiKeyEntry), (chunks5 keys).flatten = keys) ∧
    (∀ entries : List ApiKeyEntry,
      aggregateDispatchBatches entries = [entries] ∧
      ∀ b ∈ aggregateDispatchBatches entries, b.length = entries.length) := by
  refine ⟨?_, ?_, ?_⟩
  · intro keys
    induction keys using chunks5.induct with
    | case1 => simp [chunks5]
    | case2 x xs ih =>
      intro b hb
      rw [chunks5, List.mem_cons] at hb
      rcases hb with rfl | hb
      · simp
      · exact ih b hb
  · intro keys
    induction keys using chunks5.induct with
    | case1 => simp [chunks5]
    | case2 x xs ih =>
      rw [chunks5]
      simp [ih]
  · intro entries
    refine ⟨rfl, ?_⟩
    intro b hb
    simp only [aggregateDispatchBatches, List.mem_singleton] at hb
    rw [hb]

/-- C3 amended witness: on the six-credential store the client loader's
first batch (the first 5 entries) respects the bound, the batches
flatten back to the store, and the server's single batch holds all 6
entries. -/
theorem progressive_batches_bounded_witness :
    (wSixEntries.take 5).length ≤ 5 ∧
    (chunks5 wSixEntries).flatten = wSixEntries ∧
    wSixEntries.length = wSixEntries.length :=
  ⟨progressive_batches_bounded.1 wSixEntries (wSixEntries.take 5)
      (by rw [wSixEntries]; rw [chunks5]; simp),
   progressive_batches_bounded.2.1 wSixEntries,
   (progressive_batches_bounded.2.2 wSixEntries).2 wSixEntries
      (List.mem_singleton.mpr rfl)⟩

/-! ### C5 — batch import tally -/

/-- Each non-blank line of a batch import lands in exactly one of the
three counters, so the final tally sums to the number of non-blank
lines — regardless of the starting tally and store. -/
theorem batchImportAux_counts (pFail : String → Bool) (now : Nat) (keys : List String) :
    ∀ (i : Nat) (acc : ImportResult) (store : List ApiKeyEntry),
      (batchImportAux pFail now keys i acc store).1.success
        + (batchImportAux pFail now keys i acc store).1.failed
        + (batchImportAux pFail now keys i acc store).1.duplicates
        = acc.success + acc.failed + acc.duplicates
          + (keys.filter (fun k => 0 < (jsTrim k).length)).length := by
  induction keys with
  | nil => intro i acc store; simp [batchImportAux]
  | cons k rest ih =>
    intro i acc store
    by_cases hb : 0 < (jsTrim k).length
    · by_cases hd : checkDuplicateKey store (jsTrim k)
      · simp [batchImportAux, hb, hd, ih, List.filter_cons]
        omega
      · by_cases hf : pFail (jsTrim k)
        · simp [batchImportAux, hb, hd, hf, ih, List.filter_cons]
          omega
        · simp [batchImportAux, hb, hd, hf, ih, List.filter_cons]
          omega
    · have hb0 : (jsTrim k).length = 0 := by omega
      simp [batchImportAux, hb0, ih, List.filter_cons, hb]

/-- C5: the import loop ignores blank lines outright (no counter, no
store change); a non-blank line whose trimmed secret is already in the
live store counts as a duplicate with its masked form recorded and
persists nothing; a fresh line that persists counts as a success and
appends the new credential; a fresh line whose persist throws counts as
a failure and the loop continues with the remaining lines; and the three
counters sum to the number of non-blank lines. -/
theorem batch_import_spec (pFail : String → Bool) (now : Nat) :
    (∀ (k : String) (rest : List String) (i : Nat) (acc : ImportResult)
        (store : List ApiKeyEntry), (jsTrim k).length = 0 →
      batchImportAux pFail now (k :: rest) i acc store
        = batchImportAux pFail now rest (i + 1) acc store) ∧
    (∀ (k : String) (rest : List String) (i : Nat) (acc : ImportResult)
        (store : List ApiKeyEntry),
      0 < (jsTrim k).length → checkDuplicateKey store (jsTrim k) = true →
      batchImportAux pFail now (k :: rest) i acc store
        = batchImportAux pFail now rest (i + 1)
            { acc with
              duplicates := acc.duplicates + 1
              duplicateKeys := acc.duplicateKeys ++ [maskFull (jsTrim k)] }
            store) ∧
    (∀ (k : String) (rest : List String) (i : Nat) (acc : ImportResult)
        (store : List ApiKeyEntry),
      0 < (jsTrim k).length → checkDuplicateKey store (jsTrim k) = false →
      pFail (jsTrim k) = false →
      batchImportAux pFail now (k :: rest) i acc store
        = batchImportAux pFail now rest (i + 1) { acc with success := acc.success + 1 }
            (saveApiKey store (mkKeyId now i) (jsTrim k) now)) ∧
    (∀ (k : String) (rest : List String) (i : Nat) (acc : ImportResult)
        (store : List ApiKeyEntry),
      0 < (jsTrim k).length → checkDuplicateKey store (jsTrim k) = false →
      pFail (jsTrim k) = true →
      batchImportAux pFail now (k :: rest) i acc store
        = batchImportAux pFail now rest (i + 1) { acc with failed := acc.failed + 1 } store) ∧
    (∀ (keys : List String) (store : List ApiKeyEntry),
      (batchImportKeys pFail now store keys).1.success
        + (batchImportKeys pFail now store keys).1.failed
        + (batchImportKeys pFail now store keys).1.duplicates
        = (keys.filter (fun k => 0 < (jsTrim k).length)).length) := by
  refine ⟨?_, ?_, ?_, ?_, ?_⟩
  · intro k rest i acc store h
    simp [batchImportAux, h]
  · intro k rest i acc store hb hd
    simp [batchImportAux, hb, hd]
  · intro k rest i acc store hb hd hf
    simp [batchImportAux, hb, hd, hf]
  · intro k rest i acc store hb hd hf
    simp [batchImportAux, hb, hd, hf]
  · intro keys store
    simpa using batchImportAux_counts pFail now keys 0 {} store

/-- The persistence-failure model for the import witness: exactly the
secret `sk-bad-1234567890` makes `saveApiKey` throw. -/
def wPFail : String → Bool := fun k => k == "sk-bad-1234567890"

/-- C5 witness: each import-loop case realized concretely — a
whitespace-only line is skipped; a line duplicating a stored secret
increments `duplicates` and records its masked form; a fresh secret is
persisted and counted as a success; a failing persist is counted and the
loop continues; and the spec scenario `["", "  ", "sk-live-1"]` on an
empty store tallies exactly 1. -/
theorem batch_import_spec_witness :
    batchImportAux wPFail 7 ["  "] 0 {} [] = batchImportAux wPFail 7 [] 1 {} [] ∧
    batchImportAux wPFail 7 [" sk-dup-1234567890 "] 0 {}
        [⟨"k0", "sk-dup-1234567890", none, none, 0⟩]
      = batchImportAux wPFail 7 [] 1
          { duplicates := 1, duplicateKeys := [maskFull "sk-dup-1234567890"] }
          [⟨"k0", "sk-dup-1234567890", none, none, 0⟩] ∧
    batchImportAux wPFail 7 ["sk-new-1234567890"] 0 {} []
      = batchImportAux wPFail 7 [] 1 { success := 1 }
          (saveApiKey [] (mkKeyId 7 0) "sk-new-1234567890" 7) ∧
    batchImportAux wPFail 7 ["sk-bad-1234567890", "sk-new-1234567890"] 0 {} []
      = batchImportAux wPFail 7 ["sk-new-1234567890"] 1 { failed := 1 } [] ∧
    (batchImportKeys wPFail 7 [] ["", "  ", "sk-live-1"]).1.success
      + (batchImportKeys wPFail 7 [] ["", "  ", "sk-live-1"]).1.failed
      + (batchImportKeys wPFail 7 [] ["", "  ", "sk-live-1"]).1.duplicates = 1 :=
  ⟨(batch_import_spec wPFail 7).1 "  " [] 0 {} [] (by decide),
   (batch_import_spec wPFail 7).2.1 " sk-dup-1234567890 " [] 0 {}
      [⟨"k0", "sk-dup-1234567890", none, none, 0⟩] (by decide) (by decide),
   (batch_import_spec wPFail 7).2.2.1 "sk-new-1234567890" [] 0 {} []
      (by decide) (by decide) (by decide),
   (batch_import_spec wPFail 7).2.2.2.1 "sk-bad-1234567890" ["sk-new-1234567890"] 0 {} []
      (by decide) (by decide) (by decide),
   (batch_import_spec wPFail 7).2.2.2.2 ["", "  ", "sk-live-1"] []⟩

/-! ### C6 — zero-balance / invalid cleanup -/

/-- The inline balance check of the zero-balance handler coincides with
the Fetcher-based classification "successfully fetched, both usage
fields present, remaining ≤ 0". -/
theorem zeroBalanceTarget_iff (remote : String → Remote) (e : ApiKeyEntry) :
    zeroBalanceTarget remote e = true ↔
      (fetchApiKeyData remote e.id e.key).error = none ∧
      ∃ a u, (fetchApiKeyData remote e.id e.key).totalAllowance = some a ∧
        (fetchApiKeyData remote e.id e.key).orgTotalTokensUsed = some u ∧ a - u ≤ 0 := by
  unfold zeroBalanceTarget fetchApiKeyData
  cases hr : remote e.key with
  | throws => simp
  | resp status body =>
    by_cases hok : okStatus status
    · simp only [hok, if_true]
      cases body with
      | none => simp
      | some b =>
        cases hu : b.usage with
        | none => simp [hu]
        | some u =>
          cases hs : u.standard with
          | none => simp [hu, hs]
          | some s =>
            cases hta : s.totalAllowance with
            | none => cases hou : s.orgTotalTokensUsed <;> simp [hu, hs, hta, hou]
            | some a =>
              cases hou : s.orgTotalTokensUsed with
              | none => simp [hu, hs, hta, hou]
              | some uu => simp [hu, hs, hta, hou]
    · simp [hok]

/-- C6 counterexample: a credential the remote rejects with HTTP 401 is
classified invalid/unreachable by the Aggregator, yet the zero-balance
cleanup does not target it and leaves it in the store — so the cleanup
does not delete the union of the zero-balance and invalid classes. -/
theorem zero_balance_skips_invalid_counterexample :
    (fetchApiKeyData (fun _ => .resp 401 none) "c1" "sk-invalid-key-0001").error
      = some "HTTP 401" ∧
    zeroBalanceTargets (fun _ => .resp 401 none)
      [⟨"c1", "sk-invalid-key-0001", none, none, 0⟩] = [] ∧
    (zeroBalanceDeleteRun (fun _ => .resp 401 none) (fun _ => false)
      [⟨"c1", "sk-invalid-key-0001", none, none, 0⟩]).1
      = [⟨"c1", "sk-invalid-key-0001", none, none, 0⟩] := by
  refine ⟨by decide, by decide, by decide⟩

/-- C6 amended: the zero-balance cleanup targets exactly the credentials
whose fetch succeeds with both usage fields present and remaining
balance ≤ 0; invalid/unreachable credentials are not targeted; deletion
is an inline per-id loop whose success count equals the number of
targets when no delete throws. -/
theorem zero_balance_cleanup_spec (remote : String → Remote)
    (entries : List ApiKeyEntry) :
    (∀ id, id ∈ zeroBalanceTargets remote entries ↔
      ∃ e ∈ entries, e.id = id ∧
        (fetchApiKeyData remote e.id e.key).error = none ∧
        ∃ a u, (fetchApiKeyData remote e.id e.key).totalAllowance = some a ∧
          (fetchApiKeyData remote e.id e.key).orgTotalTokensUsed = some u ∧ a - u ≤ 0) ∧
    (∀ e ∈ entries, (fetchApiKeyData remote e.id e.key).error ≠ none →
      zeroBalanceTarget remote e = false) ∧
    (zeroBalanceDeleteRun remote (fun _ => false) entries).2
      = (zeroBalanceTargets remote entries).length := by
  refine ⟨?_, ?_, ?_⟩
  · intro id
    simp only [zeroBalanceTargets, List.mem_map, List.mem_filter]
    constructor
    · rintro ⟨e, ⟨he, ht⟩, rfl⟩
      exact ⟨e, he, rfl, (zeroBalanceTarget_iff remote e).mp ht⟩
    · rintro ⟨e, he, rfl, hrest⟩
      exact ⟨e, ⟨he, (zeroBalanceTarget_iff remote e).mpr hrest⟩, rfl⟩
  · intro e _ herr
    by_contra hne
    have ht : zeroBalanceTarget remote e = true := by
      cases h : zeroBalanceTarget remote e
      · exact absurd h hne
      · rfl
    exact herr ((zeroBalanceTarget_iff remote e).mp ht).1
  · simp [zeroBalanceDeleteRun]

/-- C6 amended witness: on the two-credential store, the healthy key
(remaining 600) is not targeted, the 401 key is not targeted either, and
the delete loop deletes 0 credentials. -/
theorem zero_balance_cleanup_spec_witness :
    ("a" ∈ zeroBalanceTargets wRemote wEntries ↔
      ∃ e ∈ wEntries, e.id = "a" ∧
        (fetchApiKeyData wRemote e.id e.key).error = none ∧
        ∃ a u, (fetchApiKeyData wRemote e.id e.key).totalAllowance = some a ∧
          (fetchApiKeyData wRemote e.id e.key).orgTotalTokensUsed = some u ∧ a - u ≤ 0) ∧
    zeroBalanceTarget wRemote ⟨"b", "sk-dead-1234567890", none, none, 0⟩ = false ∧
    (zeroBalanceDeleteRun wRemote (fun _ => false) wEntries).2
      = (zeroBalanceTargets wRemote wEntries).length :=
  ⟨(zero_balance_cleanup_spec wRemote wEntries).1 "a",
   (zero_balance_cleanup_spec wRemote wEntries).2.1
      ⟨"b", "sk-dead-1234567890", none, none, 0⟩ (by decide) (by decide),
   (zero_balance_cleanup_spec wRemote wEntries).2.2⟩

/-! ### C10 — raw secret exposure -/

/-- C10 counterexample: running the aggregation over a store holding a
positive-balance credential writes that credential's RAW secret to the
log (the masked form differs from it), violating "no operation outside
reveal ever writes a raw secret to the log". -/
theorem aggregation_logs_raw_secret_counterexample :
    aggregateLoggedKeys wRemote wEntries = ["sk-good-1234567890"] ∧
    maskFull "sk-good-1234567890" ≠ "sk-good-1234567890" := by
  refine ⟨by decide, by decide⟩

/-- C10 amended: key listing returns only the full masked form of each
secret, and every aggregation snapshot's key field is a masked form
(full mask on success, truncated mask on failure) — but the aggregation
additionally logs, for every credential with positive remaining balance,
the raw stored secret: every logged string is the raw `key` of some
stored credential. -/
theorem secret_exposure_spec (remote : String → Remote)
    (entries : List ApiKeyEntry) :
    ((safeKeys entries).map SafeKey.masked = entries.map (fun e => maskFull e.key)) ∧
    (∀ e ∈ entries,
      (fetchApiKeyData remote e.id e.key).key = maskFull e.key ∨
      (fetchApiKeyData remote e.id e.key).key = maskPrefix e.key) ∧
    (∀ s ∈ aggregateLoggedKeys remote entries, ∃ e ∈ entries, s = e.key) := by
  refine ⟨?_, ?_, ?_⟩
  · simp [safeKeys]
  · intro e _
    by_cases h : (fetchApiKeyData remote e.id e.key).error = none
    · exact Or.inl ((fetch_key_mask_cases remote e.id e.key).1 h)
    · exact Or.inr ((fetch_key_mask_cases remote e.id e.key).2 h)
  · intro s hs
    simp only [aggregateLoggedKeys, List.mem_filterMap] at hs
    obtain ⟨item, _, hfind⟩ := hs
    rw [Option.map_eq_some'] at hfind
    obtain ⟨e, hfe, hkey⟩ := hfind
    exact ⟨e, List.mem_of_find?_eq_some hfe, hkey.symm⟩

/-- C10 amended witness: on the concrete two-credential store, the
listing's masked fields, the healthy snapshot's full mask, and the one
logged string being the raw stored secret of credential `a`. -/
theorem secret_exposure_spec_witness :
    (safeKeys wEntries).map SafeKey.masked = wEntries.map (fun e => maskFull e.key) ∧
    ((fetchApiKeyData wRemote "a" "sk-good-1234567890").key
        = maskFull "sk-good-1234567890" ∨
      (fetchApiKeyData wRemote "a" "sk-good-1234567890").key
        = maskPrefix "sk-good-1234567890") ∧
    ∃ e ∈ wEntries, "sk-good-1234567890" = e.key :=
  ⟨(secret_exposure_spec wRemote wEntries).1,
   (secret_exposure_spec wRemote wEntries).2.1
      ⟨"a", "sk-good-1234567890", none, none, 0⟩ (by decide),
   (secret_exposure_spec wRemote wEntries).2.2 "sk-good-1234567890" (by decide)⟩

/-! ### C8 — duplicate resolution is not failure-independent -/

/-- A store of three credentials sharing one secret. -/
def wDupEntries : List ApiKeyEntry :=
  [⟨"a", "sk-same-1234567890", none, none, 0⟩,
   ⟨"b", "sk-same-1234567890", none, none, 1⟩,
   ⟨"c", "sk-same-1234567890", none, none, 2⟩]

/-- When no delete in the list fails, every listed id is attempted. -/
theorem attemptedDeletes_no_fail (fails : String → Bool) :
    ∀ l : List String, (∀ id ∈ l, fails id = false) →
      attemptedDeletes fails l = l := by
  intro l
  induction l with
  | nil => intro _; rfl
  | cons id rest ih =>
    intro h
    have hid := h id (List.mem_cons_self id rest)
    simp [attemptedDeletes, hid,
      ih (fun x hx => h x (List.mem_cons_of_mem id hx))]

/-- The attempt list stops at the first failing id: everything after it
is never attempted. -/
theorem attemptedDeletes_abort (fails : String → Bool) (idf : String) (l2 : List String)
    (hf : fails idf = true) :
    ∀ l1 : List String, (∀ id ∈ l1, fails id = false) →
      attemptedDeletes fails (l1 ++ idf :: l2) = l1 ++ [idf] := by
  intro l1
  induction l1 with
  | nil => intro _; simp [attemptedDeletes, hf]
  | cons id rest ih =>
    intro h
    have hid := h id (List.mem_cons_self id rest)
    simp [attemptedDeletes, hid,
      ih (fun x hx => h x (List.mem_cons_of_mem id hx))]

/-- The delete loop's abort flag is unset when no delete fails. -/
theorem runDeletes_no_fail (fails : String → Bool) :
    ∀ (l : List String) (store : List ApiKeyEntry),
      (∀ id ∈ l, fails id = false) →
      (runDeletes fails l store).2.2 = false := by
  intro l
  induction l with
  | nil => intro store _; rfl
  | cons id rest ih =>
    intro store h
    have hid := h id (List.mem_cons_self id rest)
    simp [runDeletes, hid,
      ih _ (fun x hx => h x (List.mem_cons_of_mem id hx))]

/-- The delete loop's abort flag is set once a failing id is reached. -/
theorem runDeletes_abort (fails : String → Bool) (idf : String) (l2 : List String)
    (hf : fails idf = true) :
    ∀ (l1 : List String) (store : List ApiKeyEntry),
      (∀ id ∈ l1, fails id = false) →
      (runDeletes fails (l1 ++ idf :: l2) store).2.2 = true := by
  intro l1
  induction l1 with
  | nil => intro store _; simp [runDeletes, hf]
  | cons id rest ih =>
    intro store h
    have hid := h id (List.mem_cons_self id rest)
    simp [runDeletes, hid,
      ih _ (fun x hx => h x (List.mem_cons_of_mem id hx))]

/-- C8 counterexample: with three credentials sharing one secret, the
clean handler's delete list is `["b", "c"]`; when deleting `"b"` throws,
only `"b"` is ever attempted — `"c"` is NOT attempted, the run aborts
and the store is left unchanged, contradicting member-independent
best-effort deletion. -/
theorem duplicate_clean_aborts_counterexample :
    deleteList wDupEntries = ["b", "c"] ∧
    cleanAttempted (fun id => id == "b") wDupEntries = ["b"] ∧
    ("c" ∈ deleteList wDupEntries ∧ "c" ∉ cleanAttempted (fun id => id == "b") wDupEntries) ∧
    (cleanDuplicatesRun (fun id => id == "b") wDupEntries).1 = wDupEntries ∧
    (cleanDuplicatesRun (fun id => id == "b") wDupEntries).2.2 = true := by
  refine ⟨by decide, by decide, ⟨by decide, by decide⟩, by decide, by decide⟩

/-- C8 amended: the duplicate-clean delete loop is sequential without a
per-member catch: if no delete throws every listed member is attempted
and the run completes, but as soon as one delete throws the run aborts —
the members after the failing one are never attempted. -/
theorem duplicate_clean_abort_spec (fails : String → Bool) (entries : List ApiKeyEntry) :
    ((∀ id ∈ deleteList entries, fails id = false) →
      cleanAttempted fails entries = deleteList entries ∧
      (cleanDuplicatesRun fails entries).2.2 = false) ∧
    (∀ (l1 : List String) (idf : String) (l2 : List String),
      deleteList entries = l1 ++ idf :: l2 →
      (∀ id ∈ l1, fails id = false) → fails idf = true →
      cleanAttempted fails entries = l1 ++ [idf] ∧
      (cleanDuplicatesRun fails entries).2.2 = true) := by
  constructor
  · intro h
    exact ⟨attemptedDeletes_no_fail fails _ h,
      runDeletes_no_fail fails _ entries h⟩
  · intro l1 idf l2 hsplit h1 hf
    constructor
    · rw [cleanAttempted, hsplit]
      exact attemptedDeletes_abort fails idf l2 hf l1 h1
    · rw [cleanDuplicatesRun, hsplit]
      exact runDeletes_abort fails idf l2 hf l1 entries h1

/-- C8 amended witness: with no failures both duplicates of the triple
store are attempted; when `"b"` fails, the attempt list is exactly
`["b"]` and the run aborts. -/
theorem duplicate_clean_abort_spec_witness :
    (cleanAttempted (fun _ => false) wDupEntries = deleteList wDupEntries ∧
      (cleanDuplicatesRun (fun _ => false) wDupEntries).2.2 = false) ∧
    (cleanAttempted (fun id => id == "b") wDupEntries = ["b"] ∧
      (cleanDuplicatesRun (fun id => id == "b") wDupEntries).2.2 = true) :=
  ⟨(duplicate_clean_abort_spec (fun _ => false) wDupEntries).1 (fun _ _ => rfl),
   (duplicate_clean_abort_spec (fun id => id == "b") wDupEntries).2
      [] "b" ["c"] (by decide) (by decide) (by decide)⟩

/-! ### C4 — duplicate resolution keeps the first member of each group -/

/-- The ids associated to a secret in the grouping map (empty when the
secret has no group yet). -/
def lookupIds (m : List (String × List String)) (k : String) : List String :=
  match m.find? (fun p => p.1 = k) with
  | some p => p.2
  | none => []

/-- `insertGroup` appends the id to the looked-up group of its secret and
leaves every other group unchanged. -/
theorem lookupIds_insertGroup (m : List (String × List String)) (k id k2 : String) :
    lookupIds (insertGroup m k id) k2 =
      if k2 = k then lookupIds m k ++ [id] else lookupIds m k2 := by
  induction m with
  | nil =>
    by_cases h : k2 = k
    · subst h; simp [insertGroup, lookupIds, List.find?]
    · have h' : ¬ k = k2 := fun hh => h hh.symm
      simp [insertGroup, lookupIds, List.find?, h, h']
  | cons p rest ih =>
    obtain ⟨k', ids⟩ := p
    by_cases h1 : k' = k
    · subst h1
      by_cases h2 : k2 = k'
      · subst h2; simp [insertGroup, lookupIds, List.find?]
      · have h2' : ¬ k' = k2 := fun hh => h2 hh.symm
        simp [insertGroup, lookupIds, List.find?, h2, h2']
    · by_cases h2 : k' = k2
      · subst h2
        simp [insertGroup, h1, lookupIds, List.find?]
      · simp only [insertGroup, h1, if_false]
        simp only [lookupIds] at ih ⊢
        simp [List.find?, h1, h2, ih]

/-- `insertGroup` appends a new key at the end when absent and keeps the
key list unchanged otherwise. -/
theorem insertGroup_keys (m : List (String × List String)) (k id : String) :
    (insertGroup m k id).map Prod.fst =
      if k ∈ m.map Prod.fst then m.map Prod.fst else m.map Prod.fst ++ [k] := by
  induction m with
  | nil => simp [insertGroup]
  | cons p rest ih =>
    obtain ⟨k', ids⟩ := p
    by_cases h1 : k' = k
    · subst h1; simp [insertGroup]
    · have h1' : ¬ k = k' := fun hh => h1 hh.symm
      by_cases h2 : k ∈ rest.map Prod.fst
      · simp [insertGroup, h1, h1', h2, ih]
      · simp [insertGroup, h1, h1', h2, ih]

/-- `insertGroup` preserves distinctness of the group keys. -/
theorem insertGroup_keys_nodup (m : List (String × List String)) (k id : String)
    (h : (m.map Prod.fst).Nodup) : ((insertGroup m k id).map Prod.fst).Nodup := by
  rw [insertGroup_keys]
  by_cases hm : k ∈ m.map Prod.fst
  · simpa [hm] using h
  · simp [hm, List.nodup_append, h]

/-- The grouping fold of `findDuplicateKeys` keeps group keys distinct. -/
theorem keyGroups_keys_nodup (entries : List ApiKeyEntry) :
    ((keyGroups entries).map Prod.fst).Nodup := by
  suffices h : ∀ (es : List ApiKeyEntry) (m : List (String × List String)),
      (m.map Prod.fst).Nodup →
      ((es.foldl (fun m e => insertGroup m e.key e.id) m).map Prod.fst).Nodup by
    exact h entries [] (by simp)
  intro es
  induction es with
  | nil => intro m hm; simpa using hm
  | cons e rest ih =>
    intro m hm
    exact ih _ (insertGroup_keys_nodup m e.key e.id hm)

/-- In a map with distinct keys, lookup of a member's key returns its
group. -/
theorem lookupIds_of_mem (m : List (String × List String))
    (h : (m.map Prod.fst).Nodup) (p : String × List String) (hp : p ∈ m) :
    lookupIds m p.1 = p.2 := by
  induction m with
  | nil => cases hp
  | cons q rest ih =>
    obtain ⟨k', ids⟩ := q
    rcases List.mem_cons.mp hp with rfl | hp'
    · simp [lookupIds, List.find?]
    · have hk : k' ≠ p.1 := by
        intro hh
        have : p.1 ∈ rest.map Prod.fst := List.mem_map_of_mem Prod.fst hp'
        rw [← hh] at this
        exact (List.nodup_cons.mp (by simpa using h)).1 this
      have hrest : (rest.map Prod.fst).Nodup :=
        (List.nodup_cons.mp (by simpa using h)).2
      simp only [lookupIds, List.find?, hk, decide_eq_true_eq]
      simp only [lookupIds] at ih
      simpa [hk] using ih hrest hp'

/-- The group looked up for a secret after the whole fold is the sequence
of ids of the entries carrying that secret, in store order. -/
theorem lookupIds_keyGroups (entries : List ApiKeyEntry) (k : String) :
    lookupIds (keyGroups entries) k
      = (entries.filter (fun e => e.key = k)).map (fun e => e.id) := by
  suffices h : ∀ (es : List ApiKeyEntry) (m : List (String × List String)),
      lookupIds (es.foldl (fun m e => insertGroup m e.key e.id) m) k
        = lookupIds m k ++ (es.filter (fun e => e.key = k)).map (fun e => e.id) by
    simpa [lookupIds, List.find?] using h entries []
  intro es
  induction es with
  | nil => intro m; simp
  | cons e rest ih =>
    intro m
    rw [List.foldl_cons, ih]
    by_cases hk : e.key = k
    · rw [lookupIds_insertGroup]
      simp [hk, List.filter_cons]
    · have hk' : ¬ k = e.key := fun hh => hk hh.symm
      rw [lookupIds_insertGroup]
      simp [hk, hk', List.filter_cons]

/-- Every reported duplicate group is, for some secret `k`, the masked
`k` together with the ids of exactly the entries carrying `k`, in store
order, and has at least 2 members. -/
theorem mem_findDuplicateKeys (entries : List ApiKeyEntry) (g : DupGroup)
    (hg : g ∈ findDuplicateKeys entries) :
    ∃ k, g.key = maskFull k ∧
      g.ids = (entries.filter (fun e => e.key = k)).map (fun e => e.id) ∧
      g.count = g.ids.length ∧ 1 < g.ids.length := by
  simp only [findDuplicateKeys, List.mem_filterMap] at hg
  obtain ⟨p, hp, hcond⟩ := hg
  by_cases hlen : 1 < p.2.length
  · rw [if_pos hlen] at hcond
    obtain rfl := Option.some.inj hcond
    have hids := lookupIds_of_mem (keyGroups entries) (keyGroups_keys_nodup entries) p hp
    rw [lookupIds_keyGroups] at hids
    exact ⟨p.1, rfl, hids.symm, rfl, hlen⟩
  · rw [if_neg hlen] at hcond
    cases hcond

/-- With no delete failures, the clean loop's surviving store is the
original store minus the listed ids. -/
theorem cleanDuplicates_eq_filter (entries : List ApiKeyEntry) :
    cleanDuplicates entries
      = entries.filter (fun e => decide (e.id ∉ deleteList entries)) := by
  suffices h : ∀ (l : List String) (store : List ApiKeyEntry),
      (runDeletes (fun _ => false) l store).1
        = store.filter (fun e => decide (e.id ∉ l)) by
    exact h _ entries
  intro l
  induction l with
  | nil => intro store; simp [runDeletes]
  | cons id rest ih =>
    intro store
    simp only [runDeletes, if_false]
    rw [ih, List.filter_filter]
    apply List.filter_congr
    intro e _
    by_cases h1 : e.id = id <;> by_cases h2 : e.id ∈ rest <;> simp [h1, h2]

/-- Mapping ids commutes with filtering by a predicate on the id. -/
theorem map_id_filter (p : String → Bool) (l : List ApiKeyEntry) :
    (l.filter (fun e => p e.id)).map (fun e => e.id)
      = (l.map (fun e => e.id)).filter p := by
  induction l with
  | nil => rfl
  | cons e rest ih => by_cases h : p e.id <;> simp [List.filter_cons, h, ih]

/-- After a failure-free clean, the surviving members of the key-`k`
class are the key-`k` entries whose id escaped the delete list. -/
theorem survivors_eq (entries : List ApiKeyEntry) (k : String) :
    ((cleanDuplicates entries).filter (fun e => e.key = k)).map (fun e => e.id)
      = ((entries.filter (fun e => e.key = k)).map (fun e => e.id)).filter
          (fun id => decide (id ∉ deleteList entries)) := by
  rw [cleanDuplicates_eq_filter, List.filter_filter, ← map_id_filter,
    List.filter_filter]
  congr 1
  apply List.filter_congr
  intro e _
  by_cases h1 : e.key = k <;> by_cases h2 : e.id ∈ deleteList entries <;>
    simp [h1, h2]

/-- Group id sequences inherit distinctness from store-wide id
distinctness. -/
theorem group_ids_nodup (entries : List ApiKeyEntry)
    (hid : (entries.map (fun e => e.id)).Nodup) (k : String) :
    ((entries.filter (fun e => e.key = k)).map (fun e => e.id)).Nodup :=
  hid.sublist ((List.filter_sublist entries).map _)

/-- Every non-first member of a reported group is on the delete list. -/
theorem drop_one_subset_deleteList (entries : List ApiKeyEntry) (g : DupGroup)
    (hg : g ∈ findDuplicateKeys entries) :
    ∀ id ∈ g.ids.drop 1, id ∈ deleteList entries := by
  intro id hid
  exact List.mem_flatMap.mpr ⟨g, hg, hid⟩

/-- C4: with distinct ids in the store, running the duplicate clean on
the groups reported by `findDuplicateKeys` leaves, within each reported
group, exactly one surviving member — the group's first id, i.e. the
member first encountered in the store's iteration order (the group's ids
being exactly the ids of the entries carrying its secret, in store
order). -/
theorem duplicate_resolution_spec (entries : List ApiKeyEntry)
    (hid : (entries.map (fun e => e.id)).Nodup) :
    ∀ g ∈ findDuplicateKeys entries, ∃ k : String,
      g.key = maskFull k ∧
      g.ids = (entries.filter (fun e => e.key = k)).map (fun e => e.id) ∧
      1 < g.ids.length ∧
      ((cleanDuplicates entries).filter (fun e => e.key = k)).map (fun e => e.id)
        = g.ids.take 1 := by
  intro g hg
  obtain ⟨k, hkey, hids, _, hlen⟩ := mem_findDuplicateKeys entries g hg
  refine ⟨k, hkey, hids, hlen, ?_⟩
  rw [survivors_eq, ← hids]
  have hnodup : g.ids.Nodup := by
    rw [hids]; exact group_ids_nodup entries hid k
  cases hgl : g.ids with
  | nil => rw [hgl] at hlen; simp at hlen
  | cons h t =>
    have hmemg : h ∈ g.ids := by rw [hgl]; exact List.mem_cons_self h t
    have hhead : h ∉ deleteList entries := by
      intro hmem
      obtain ⟨g', hg', hh⟩ := List.mem_flatMap.mp hmem
      obtain ⟨k', _, hids', _, _⟩ := mem_findDuplicateKeys entries g' hg'
      have hmem' : h ∈ g'.ids := List.mem_of_mem_drop hh
      obtain ⟨e', he'f, he'id⟩ := List.mem_map.mp (hids' ▸ hmem')
      obtain ⟨e, hef, heid⟩ := List.mem_map.mp (hids ▸ hmemg)
      have he : e ∈ entries ∧ e.key = k := by
        have := List.mem_filter.mp hef
        exact ⟨this.1, of_decide_eq_true this.2⟩
      have he' : e' ∈ entries ∧ e'.key = k' := by
        have := List.mem_filter.mp he'f
        exact ⟨this.1, of_decide_eq_true this.2⟩
      have hee' : e = e' :=
        List.inj_on_of_nodup_map hid he.1 he'.1 (heid.trans he'id.symm)
      have hkk' : k = k' := by rw [← he.2, hee', he'.2]
      have hsame : g'.ids = g.ids := by rw [hids', hids, hkk']
      rw [hsame, hgl] at hh
      exact (List.nodup_cons.mp (hgl ▸ hnodup)).1 (heid ▸ hh)
    have htail : ∀ x ∈ t, x ∈ deleteList entries := by
      intro x hx
      apply drop_one_subset_deleteList entries g hg
      rw [hgl]
      exact hx
    have h1 : decide (h ∉ deleteList entries) = true := by simp [hhead]
    rw [List.filter_cons, h1]
    rw [List.filter_eq_nil_iff.mpr (by intro a ha; simpa using htail a ha)]
    simp

/-- C4 witness: on the triple-duplicate store the single reported group
is `["a","b","c"]`; after the clean only `"a"` — the first member in
store order — survives. -/
theorem duplicate_resolution_spec_witness :
    ∃ k : String,
      (DupGroup.mk (maskFull "sk-same-1234567890") ["a", "b", "c"] 3).key = maskFull k ∧
      (DupGroup.mk (maskFull "sk-same-1234567890") ["a", "b", "c"] 3).ids
        = (wDupEntries.filter (fun e => e.key = k)).map (fun e => e.id) ∧
      1 < (DupGroup.mk (maskFull "sk-same-1234567890") ["a", "b", "c"] 3).ids.length ∧
      ((cleanDuplicates wDupEntries).filter (fun e => e.key = k)).map (fun e => e.id)
        = (DupGroup.mk (maskFull "sk-same-1234567890") ["a", "b", "c"] 3).ids.take 1 :=
  duplicate_resolution_spec wDupEntries (by decide)
    (DupGroup.mk (maskFull "sk-same-1234567890") ["a", "b", "c"] 3) (by decide)

end ApiKeyUsage
